import Mathlib

/-!
Verification development for the natural-language Mongo operations agent
(`mongo_operations_agent.py` together with `my_mongo_client.py`).

The development shallowly embeds the agent's core logic:

* `operation_detection` embeds `MongoAgent.operation_detection` (the
  decision made on the oracle's reply; the oracle call itself is an opaque
  external collaborator, so the reply is the function's input);
* `router` embeds `MongoAgent.router`;
* `normalize_llm_json` embeds `MongoAgent.normalize_llm_json` (the Python
  `strip` calls, the two `re.sub` rewrites, the literal `"id":` rename, and
  `json.loads`);
* `mongo_insert`, `mongo_update`, `mongo_delete`, `mongo_find` embed the
  four handlers.  Each takes the raw oracle reply and a store model and
  returns the printed lines, the returned `messages` value, the trace of
  store operations that were executed, and the exception (if any) that
  escaped the handler.

The document store is modelled as a list of documents plus a connectivity
flag; `insert_one` / `update_one` / `delete_one` / `find_one` are modelled
with `_id`-equality matching.  The store itself is an external collaborator,
so its model is intentionally small: projection shaping of a returned
document and `ObjectId` generation are not modelled (no claim exercises
them).  The JSON parser models `json.loads` on the fragment of JSON this
program can meet: objects, arrays, strings with the common backslash
escapes, integers, booleans and null; `\u` escapes and float literals are
not modelled (no claim exercises them).
-/

/-- The single-quote character, written by code so that character-literal
escaping never has to appear in source. -/
def squote : Char := Char.ofNat 39

/-- The double-quote character. -/
def dquote : Char := Char.ofNat 34

/-- The backslash character. -/
def bslash : Char := Char.ofNat 92

/-- Python `str.strip()` whitespace: space, tab, newline, carriage return,
vertical tab, form feed.  The same set is matched by `\s` in the `re`
patterns of `normalize_llm_json`. -/
def isPyWs (c : Char) : Bool :=
  c = ' ' || c = Char.ofNat 9 || c = Char.ofNat 10 || c = Char.ofNat 13 ||
  c = Char.ofNat 11 || c = Char.ofNat 12

/-- Strip all leading and trailing characters satisfying `p`
(the semantics of Python's `str.strip(chars)` for a one-element `chars`). -/
def stripP (p : Char → Bool) (cs : List Char) : List Char :=
  ((cs.dropWhile p).reverse.dropWhile p).reverse

/-- `s.strip().strip('"').strip("'")` from `normalize_llm_json` line 281. -/
def stripQuotes (cs : List Char) : List Char :=
  stripP (fun c => c = squote) (stripP (fun c => c = dquote) (stripP isPyWs cs))

/-- Python `str.strip()` (whitespace only), as used on the oracle replies. -/
def pyStripWs (s : String) : String :=
  ⟨stripP isPyWs s.data⟩

/-- Python `s.split("|")`: split on every occurrence of the delimiter,
keeping empty segments, so the result always has `count + 1` segments. -/
def pySplitPipe : List Char → List (List Char)
  | [] => [[]]
  | c :: rest =>
    if c = '|' then [] :: pySplitPipe rest
    else
      match pySplitPipe rest with
      | [] => [[c]]
      | g :: gs => (c :: g) :: gs

/-- JSON values as produced by `json.loads`. -/
inductive JVal where
  | null : JVal
  | bool : Bool → JVal
  | num : Int → JVal
  | str : String → JVal
  | arr : List JVal → JVal
  | obj : List (String × JVal) → JVal

mutual

/-- Structural equality of JSON values (Python `==` on the parsed data). -/
def JVal.beq : JVal → JVal → Bool
  | .null, .null => true
  | .bool a, .bool b => a == b
  | .num a, .num b => a == b
  | .str a, .str b => a == b
  | .arr a, .arr b => jarrBeq a b
  | .obj a, .obj b => jobjBeq a b
  | _, _ => false

/-- Elementwise equality of JSON arrays. -/
def jarrBeq : List JVal → List JVal → Bool
  | [], [] => true
  | x :: xs, y :: ys => JVal.beq x y && jarrBeq xs ys
  | _, _ => false

/-- Elementwise equality of JSON object fields. -/
def jobjBeq : List (String × JVal) → List (String × JVal) → Bool
  | [], [] => true
  | (k1, v1) :: xs, (k2, v2) :: ys => k1 == k2 && JVal.beq v1 v2 && jobjBeq xs ys
  | _, _ => false

end

mutual

/-- A rendering of a JSON value into message text (standing in for Python's
string interpolation of the value; only used to build printed lines). -/
def jvalStr : JVal → String
  | .null => "None"
  | .bool true => "True"
  | .bool false => "False"
  | .num n => toString n
  | .str s => s
  | .arr xs => "[" ++ jarrStr xs ++ "]"
  | .obj fs => "\x7b" ++ jobjStr fs ++ "\x7d"

/-- Rendering of array elements. -/
def jarrStr : List JVal → String
  | [] => ""
  | [x] => jvalStr x
  | x :: xs => jvalStr x ++ ", " ++ jarrStr xs

/-- Rendering of object fields. -/
def jobjStr : List (String × JVal) → String
  | [] => ""
  | [(k, v)] => k ++ ": " ++ jvalStr v
  | (k, v) :: fs => k ++ ": " ++ jvalStr v ++ ", " ++ jobjStr fs

end

/-- The kinds of Python exceptions the embedded code can raise:
`json.JSONDecodeError` from `json.loads`, `ValueError` from tuple
unpacking, `TypeError` from `in` / indexing / driver document validation,
`pymongo` duplicate-key and connectivity errors, and `AttributeError`
from calling a string method on a non-string. -/
inductive PyErr where
  | parseError : PyErr
  | valueError : PyErr
  | typeError : PyErr
  | dupKeyError : PyErr
  | storeError : PyErr
  | attributeError : PyErr
deriving DecidableEq

/-- Replace a key's value in a dict under construction, or append the pair:
`json.loads` keeps the last value for a repeated key, at the position of the
first occurrence (Python dict insertion semantics). -/
def dictSet (fs : List (String × JVal)) (k : String) (v : JVal) : List (String × JVal) :=
  if fs.any (fun kv => kv.1 == k) then
    fs.map (fun kv => if kv.1 == k then (k, v) else kv)
  else fs ++ [(k, v)]

/-- JSON whitespace accepted by `json.loads` between tokens. -/
def isJsonWs (c : Char) : Bool :=
  c = ' ' || c = Char.ofNat 9 || c = Char.ofNat 10 || c = Char.ofNat 13

/-- Decode one backslash escape of a JSON string (`\u` is not modelled). -/
def jsonEsc (c : Char) : Option Char :=
  if c = dquote then some dquote
  else if c = bslash then some bslash
  else if c = '/' then some '/'
  else if c = 'n' then some (Char.ofNat 10)
  else if c = 't' then some (Char.ofNat 9)
  else if c = 'r' then some (Char.ofNat 13)
  else if c = 'b' then some (Char.ofNat 8)
  else if c = 'f' then some (Char.ofNat 12)
  else none

/-- Parse the body of a JSON string after the opening quote; returns the
content and the input after the closing quote.  Raw control characters are
rejected, as in strict-mode `json.loads`. -/
def parseJString : Nat → List Char → Option (List Char × List Char)
  | 0, _ => none
  | _ + 1, [] => none
  | fuel + 1, c :: rest =>
    if c = dquote then some ([], rest)
    else if c = bslash then
      match rest with
      | [] => none
      | e :: rest2 =>
        match jsonEsc e with
        | none => none
        | some ec =>
          match parseJString fuel rest2 with
          | none => none
          | some (content, rest3) => some (ec :: content, rest3)
    else if c.toNat < 32 then none
    else
      match parseJString fuel rest with
      | none => none
      | some (content, rest3) => some (c :: content, rest3)

/-- Parse an unsigned JSON integer (no leading zeros, as in `json.loads`). -/
def parseJNat (cs : List Char) : Option (Nat × List Char) :=
  match cs.takeWhile Char.isDigit, cs.dropWhile Char.isDigit with
  | [], _ => none
  | d :: ds, rest =>
    if d = '0' ∧ ds ≠ [] then none
    else some ((d :: ds).foldl (fun acc c => acc * 10 + (c.toNat - 48)) 0, rest)

mutual

/-- Parse one JSON value (fuel-based recursion; the top level supplies
fuel larger than the input length, and every recursive call consumes at
least one input character). -/
def parseJVal : Nat → List Char → Option (JVal × List Char)
  | 0, _ => none
  | fuel + 1, cs =>
    match cs.dropWhile isJsonWs with
    | [] => none
    | c :: rest =>
      if c = '\x7b' then
        match rest.dropWhile isJsonWs with
        | d :: rest2 =>
          if d = '\x7d' then some (.obj [], rest2)
          else parseJMembers fuel (d :: rest2) []
        | [] => none
      else if c = '[' then
        match rest.dropWhile isJsonWs with
        | d :: rest2 =>
          if d = ']' then some (.arr [], rest2)
          else parseJItems fuel (d :: rest2) []
        | [] => none
      else if c = dquote then
        match parseJString fuel rest with
        | some (content, rest2) => some (.str ⟨content⟩, rest2)
        | none => none
      else if (c :: rest).take 4 = ['t', 'r', 'u', 'e'] then
        some (.bool true, (c :: rest).drop 4)
      else if (c :: rest).take 5 = ['f', 'a', 'l', 's', 'e'] then
        some (.bool false, (c :: rest).drop 5)
      else if (c :: rest).take 4 = ['n', 'u', 'l', 'l'] then
        some (.null, (c :: rest).drop 4)
      else if c = '-' then
        match parseJNat rest with
        | some (n, rest2) => some (.num (-(n : Int)), rest2)
        | none => none
      else
        match parseJNat (c :: rest) with
        | some (n, rest2) => some (.num (n : Int), rest2)
        | none => none

/-- Parse the members of a JSON object (after at least one member is known
to follow); accumulates with `dictSet` to model dict key collapsing. -/
def parseJMembers : Nat → List Char → List (String × JVal) → Option (JVal × List Char)
  | 0, _, _ => none
  | fuel + 1, cs, acc =>
    match cs.dropWhile isJsonWs with
    | c :: rest =>
      if c = dquote then
        match parseJString fuel rest with
        | some (key, rest2) =>
          match rest2.dropWhile isJsonWs with
          | ':' :: rest3 =>
            match parseJVal fuel rest3 with
            | some (v, rest4) =>
              match rest4.dropWhile isJsonWs with
              | ',' :: rest5 => parseJMembers fuel rest5 (dictSet acc ⟨key⟩ v)
              | d :: rest5 =>
                if d = '\x7d' then some (.obj (dictSet acc ⟨key⟩ v), rest5) else none
              | [] => none
            | none => none
          | _ => none
        | none => none
      else none
    | [] => none

/-- Parse the items of a JSON array (after at least one item is known to
follow). -/
def parseJItems : Nat → List Char → List JVal → Option (JVal × List Char)
  | 0, _, _ => none
  | fuel + 1, cs, acc =>
    match parseJVal fuel cs with
    | some (v, rest) =>
      match rest.dropWhile isJsonWs with
      | ',' :: rest2 => parseJItems fuel rest2 (acc ++ [v])
      | d :: rest2 => if d = ']' then some (.arr (acc ++ [v]), rest2) else none
      | [] => none
    | none => none

end

/-- `json.loads`: parse exactly one value, allowing only whitespace after. -/
def parseJson (cs : List Char) : Option JVal :=
  match parseJVal (cs.length + 1) cs with
  | some (v, rest) => if rest.dropWhile isJsonWs = [] then some v else none
  | none => none

/-- Attempt a match of `([{,]\s*)'([^']+)'\s*:` starting right after the
`[{,]` character: returns the `\s*` run, the key, and the input after the
final `:` of the match. -/
def p2match (cs : List Char) : Option (List Char × List Char × List Char) :=
  match cs.dropWhile isPyWs with
  | [] => none
  | c :: r2 =>
    if c = squote then
      match r2.dropWhile (fun x => x != squote) with
      | [] => none
      | _ :: r4 =>
        if r2.takeWhile (fun x => x != squote) = [] then none
        else
          match r4.dropWhile isPyWs with
          | ':' :: r6 => some (cs.takeWhile isPyWs, r2.takeWhile (fun x => x != squote), r6)
          | _ => none
    else none

/-- One left-to-right `re.sub` scan for
`([{,]\s*)'([^']+)'\s*:` with replacement `\1"\2":` (line 283).  The fuel
starts at the input length; each step consumes at least one character, so
the fuel never runs out on the initial call. -/
def pass2Fuel : Nat → List Char → List Char
  | 0, cs => cs
  | _ + 1, [] => []
  | fuel + 1, c :: rest =>
    if c = '\x7b' || c = ',' then
      match p2match rest with
      | some (ws1, key, r6) =>
        c :: ws1 ++ dquote :: key ++ dquote :: ':' :: pass2Fuel fuel r6
      | none => c :: pass2Fuel fuel rest
    else c :: pass2Fuel fuel rest

/-- The single-quoted-key rewrite of `normalize_llm_json`. -/
def pass2 (cs : List Char) : List Char := pass2Fuel cs.length cs

/-- Attempt a match of `:\s*'([^']+)'(\s*[},])` starting right after the
`:`; returns the value, the `\s*` run of group 2, its final `[},]`
character, and the input after it. -/
def p3match (cs : List Char) : Option (List Char × List Char × Char × List Char) :=
  match cs.dropWhile isPyWs with
  | [] => none
  | c :: r2 =>
    if c = squote then
      match r2.dropWhile (fun x => x != squote) with
      | [] => none
      | _ :: r4 =>
        if r2.takeWhile (fun x => x != squote) = [] then none
        else
          match r4.dropWhile isPyWs with
          | [] => none
          | t :: r6 =>
            if t = '\x7d' || t = ',' then
              some (r2.takeWhile (fun x => x != squote), r4.takeWhile isPyWs, t, r6)
            else none
    else none

/-- One left-to-right `re.sub` scan for `:\s*'([^']+)'(\s*[},])` with
replacement `: "\1"\2` (line 284). -/
def pass3Fuel : Nat → List Char → List Char
  | 0, cs => cs
  | _ + 1, [] => []
  | fuel + 1, c :: rest =>
    if c = ':' then
      match p3match rest with
      | some (v, ws2, t, r6) =>
        ':' :: ' ' :: dquote :: v ++ dquote :: ws2 ++ t :: pass3Fuel fuel r6
      | none => c :: pass3Fuel fuel rest
    else c :: pass3Fuel fuel rest

/-- The single-quoted-value rewrite of `normalize_llm_json`. -/
def pass3 (cs : List Char) : List Char := pass3Fuel cs.length cs

/-- Does `pat` start the text? -/
def startsWithChars : List Char → List Char → Bool
  | [], _ => true
  | _ :: _, [] => false
  | p :: ps, c :: cs => p == c && startsWithChars ps cs

/-- One left-to-right scan for the literal rewrite
`re.sub(r'"id":', r'"_id":', s)` (line 285): leftmost, non-overlapping
replacement of the five characters `"id":`. -/
def pass4Fuel : Nat → List Char → List Char
  | 0, cs => cs
  | _ + 1, [] => []
  | fuel + 1, c :: rest =>
    if c = dquote ∧ startsWithChars ['i', 'd', dquote, ':'] rest then
      dquote :: '_' :: 'i' :: 'd' :: dquote :: ':' :: pass4Fuel fuel (rest.drop 4)
    else c :: pass4Fuel fuel rest

/-- The literal `"id":` → `"_id":` rewrite of `normalize_llm_json`. -/
def pass4 (cs : List Char) : List Char := pass4Fuel cs.length cs

/-- The textual stage of `normalize_llm_json`: strip surrounding
whitespace and quotes and apply the three rewrites, in source order. -/
def normalizeText (cs : List Char) : List Char :=
  pass4 (pass3 (pass2 (stripQuotes cs)))

/-- The textual stage on `String`s. -/
def normalizeTextStr (s : String) : String :=
  ⟨normalizeText s.data⟩

/-- `normalize_llm_json`: textual repair followed by `json.loads`;
a parse failure is the `ParseError` of the specification. -/
def normalize_llm_json (s : String) : Except PyErr JVal :=
  match parseJson (normalizeText s.data) with
  | some v => .ok v
  | none => .error .parseError

/-- `normalize_llm_json` as a dynamically typed Python callable: called on
a non-string value (such as its own returned mapping), `s.strip()` raises
`AttributeError`. -/
def normalizePy : JVal → Except PyErr JVal
  | .str s => normalize_llm_json s
  | _ => .error .attributeError

/-- Python truthiness of a parsed JSON value (`if parsed_query and ...`). -/
def truthy : JVal → Bool
  | .null => false
  | .bool b => b
  | .num n => n != 0
  | .str s => !s.data.isEmpty
  | .arr xs => !xs.isEmpty
  | .obj fs => !fs.isEmpty

/-- Does `pat` occur as a contiguous run inside the text? (Python `in` on
strings.) -/
def subSearch (pat : List Char) : List Char → Bool
  | [] => pat.isEmpty
  | c :: rest => startsWithChars pat (c :: rest) || subSearch pat rest

/-- Python `key in parsed`: key membership for a dict, containment for a
string, element membership for a list, `TypeError` otherwise. -/
def pyIn (key : String) : JVal → Except PyErr Bool
  | .obj fs => .ok (fs.any (fun kv => kv.1 == key))
  | .str s => .ok (subSearch key.data s.data)
  | .arr xs => .ok (xs.any (fun x => JVal.beq x (.str key)))
  | _ => .error .typeError

/-- Python `parsed[key]`: dict lookup (the handlers only index after a
successful `in` test, so a missing dict key cannot occur on any reached
path); indexing any non-dict with a string raises `TypeError`. -/
def pyGetItem (v : JVal) (key : String) : Except PyErr JVal :=
  match v with
  | .obj fs =>
    match fs.find? (fun kv => kv.1 == key) with
    | some kv => .ok kv.2
    | none => .error .typeError
  | _ => .error .typeError

/-- Value of a field of a stored document. -/
def objGet (fs : List (String × JVal)) (key : String) : Option JVal :=
  (fs.find? (fun kv => kv.1 == key)).map (fun kv => kv.2)

/-- A stored document: the field map of a Mongo document. -/
def Doc : Type := List (String × JVal)

/-- Does document `d` have `_id` equal to `idv`? -/
def docIdIs (d : Doc) (idv : JVal) : Bool :=
  match objGet d "_id" with
  | some v => JVal.beq v idv
  | none => false

/-- The document store: a connectivity flag (the `MyMongoClient`
connection may fail) and the documents of the `news_hub.topics`
collection. -/
structure Store where
  conn : Bool
  docs : List Doc

/-- A store operation executed by a handler.  The update filter
`{"_id": ...}` and update spec `{"$set": {"description": ...}}` and the
delete filter `{"_id": ...}` are fixed shapes in the source, so only their
variable parts are carried. -/
inductive StoreOp where
  | insertOne : List (String × JVal) → StoreOp
  | updateOne : JVal → JVal → StoreOp
  | deleteOne : JVal → StoreOp
  | findOne : JVal → JVal → StoreOp

/-- Does the operation write to the store? -/
def isWrite : StoreOp → Bool
  | .findOne _ _ => false
  | _ => true

/-- The document fields a store operation creates or modifies:
`insert_one` writes every field of its document, the update writes exactly
the `description` field, and a delete removes a document without writing
any field. -/
def writeFields : StoreOp → List String
  | .insertOne fs => fs.map Prod.fst
  | .updateOne _ _ => ["description"]
  | .deleteOne _ => []
  | .findOne _ _ => []

/-- The observable outcome of one handler invocation: the lines printed,
the `messages` value returned (empty when the handler returns `None`), the
store operations executed, and the exception escaping the handler, if
any. -/
structure HOut where
  prints : List String
  ret : List String
  ops : List StoreOp
  exc : Option PyErr

/-- Outcome of a handler from which an exception escapes. -/
def crashOut (e : PyErr) : HOut :=
  { prints := [], ret := [], ops := [], exc := some e }

/-- Printed on the multi-document path of all three mutating handlers. -/
def multiDetectedInsert : String :=
  "Multiple documents detected. Please insert one document at a time."

/-- Returned as the message on the multi-document path of the update and
delete handlers. -/
def multiDetectedDelete : String :=
  "Multiple documents detected. Please delete one document at a time."

/-- Validation message of the insert handler. -/
def cantInsertMsg : String := "Could not determine a valid ID to insert."

/-- Validation message of the update handler. -/
def cantUpdateMsg : String := "Could not determine both ID and new description."

/-- Validation message of the delete handler. -/
def cantDeleteMsg : String := "Could not determine a valid ID to delete."

/-- Printed by the find handler when no document matched. -/
def noMatchMsg : String := "No document matched the query."

/-- Rendering of a caught exception in a printed line. -/
def pyErrStr : PyErr → String
  | .parseError => "Expecting value"
  | .valueError => "too many values to unpack"
  | .typeError => "document must be an instance of dict"
  | .dupKeyError => "E11000 duplicate key error"
  | .storeError => "connection refused"
  | .attributeError => "object has no attribute strip"

/-- `print(f"Error inserting document: {e}")`. -/
def insertErrText (e : PyErr) : String := "Error inserting document: " ++ pyErrStr e

/-- `print(f"Error deleting document: {e}")`. -/
def deleteErrText (e : PyErr) : String := "Error deleting document: " ++ pyErrStr e

/-- `print(f"Inserted document with ID: {result.inserted_id}")`. -/
def insertedText (idv : JVal) : String := "Inserted document with ID: " ++ jvalStr idv

/-- Update handler success line. -/
def updatedText (idv : JVal) : String :=
  "Successfully updated description for document with ID: " ++ jvalStr idv

/-- Update handler line when no document matched the id. -/
def updateNoneText (idv : JVal) : String := "No document found with ID: " ++ jvalStr idv

/-- Delete handler success line. -/
def deletedText (idv : JVal) : String :=
  "Successfully deleted document with ID: " ++ jvalStr idv

/-- Delete handler line when no document matched the id. -/
def deleteNoneText (idv : JVal) : String := "No document found with ID: " ++ jvalStr idv

/-- Rendering of a retrieved document in the find handler's print. -/
def docStr (d : Doc) : String := "\x7b" ++ jobjStr d ++ "\x7d"

/-- `print(f"Document retrieved with filter: {mongo_filter}: {result}")`:
the filter segment is interpolated before stripping, as in the source. -/
def retrievedText (fseg : String) (d : Doc) : String :=
  "Document retrieved with filter: " ++ fseg ++ ": " ++ docStr d

/-- `if parsed_document and '_id' in parsed_document` and the analogous
delete-handler test (Python `and` short-circuits, so a falsy value never
reaches the `in` test). -/
def truthyAndHasKey (v : JVal) (key : String) : Except PyErr Bool :=
  if truthy v then pyIn key v else .ok false

/-- `if parsed_query and '_id' in parsed_query and 'description' in
parsed_query` of the update handler. -/
def updateCond (v : JVal) : Except PyErr Bool :=
  if truthy v then
    match pyIn "_id" v with
    | .error e => .error e
    | .ok false => .ok false
    | .ok true => pyIn "description" v
  else .ok false

/-- `MongoAgent.mongo_insert`, lines 153-190, as a function of the raw
oracle reply and the store.  The `with MyMongoClient()` block sits inside
`try/except Exception`, so duplicate keys, client-side document type
errors and connectivity failures are all caught and printed; the
normalizer and the `in` test run before the `try` and their exceptions
escape. -/
def mongo_insert (raw : String) (st : Store) : HOut :=
  if 1 < (pySplitPipe raw.data).length then
    { prints := [multiDetectedInsert], ret := [multiDetectedInsert], ops := [], exc := none }
  else
    match normalize_llm_json (pyStripWs raw) with
    | .error e => crashOut e
    | .ok parsed =>
      match truthyAndHasKey parsed "_id" with
      | .error e => crashOut e
      | .ok false => { prints := [cantInsertMsg], ret := [], ops := [], exc := none }
      | .ok true =>
        match parsed with
        | .obj fields =>
          if st.conn then
            match objGet fields "_id" with
            | some idv =>
              if st.docs.any (fun d => docIdIs d idv) then
                { prints := [insertErrText .dupKeyError], ret := [], ops := [], exc := none }
              else
                { prints := [insertedText idv], ret := [],
                  ops := [StoreOp.insertOne fields], exc := none }
            | none =>
              -- unreachable: guarded by the membership test above; the real
              -- driver would generate an ObjectId here, which is not modelled
              { prints := [insertErrText .typeError], ret := [], ops := [], exc := none }
          else { prints := [insertErrText .storeError], ret := [], ops := [], exc := none }
        | _ => { prints := [insertErrText .typeError], ret := [], ops := [], exc := none }

/-- `MongoAgent.mongo_update`, lines 70-110.  Nothing here is wrapped in a
`try`, so normalizer, `in`-test, indexing and store exceptions all escape;
the argument dicts of `update_one` are evaluated before the store round
trip, and `update_one` executes (and reports `matched_count`) whether or
not a document matched. -/
def mongo_update (raw : String) (st : Store) : HOut :=
  if 1 < (pySplitPipe raw.data).length then
    { prints := [multiDetectedInsert], ret := [multiDetectedDelete], ops := [], exc := none }
  else
    match normalize_llm_json (pyStripWs raw) with
    | .error e => crashOut e
    | .ok parsed =>
      match updateCond parsed with
      | .error e => crashOut e
      | .ok false => { prints := [cantUpdateMsg], ret := [], ops := [], exc := none }
      | .ok true =>
        match pyGetItem parsed "_id" with
        | .error e => crashOut e
        | .ok idv =>
          match pyGetItem parsed "description" with
          | .error e => crashOut e
          | .ok descv =>
            if st.conn then
              if st.docs.any (fun d => docIdIs d idv) then
                { prints := [updatedText idv], ret := [],
                  ops := [StoreOp.updateOne idv descv], exc := none }
              else
                { prints := [updateNoneText idv], ret := [],
                  ops := [StoreOp.updateOne idv descv], exc := none }
            else crashOut .storeError

/-- `MongoAgent.mongo_delete`, lines 112-151.  The `with` block including
the filter-argument evaluation sits inside `try/except Exception`, so
indexing and store exceptions are caught and printed; the normalizer and
the `in` test run before the `try` and their exceptions escape. -/
def mongo_delete (raw : String) (st : Store) : HOut :=
  if 1 < (pySplitPipe raw.data).length then
    { prints := [multiDetectedInsert], ret := [multiDetectedDelete], ops := [], exc := none }
  else
    match normalize_llm_json (pyStripWs raw) with
    | .error e => crashOut e
    | .ok parsed =>
      match truthyAndHasKey parsed "_id" with
      | .error e => crashOut e
      | .ok false => { prints := [cantDeleteMsg], ret := [], ops := [], exc := none }
      | .ok true =>
        match pyGetItem parsed "_id" with
        | .error e => { prints := [deleteErrText e], ret := [], ops := [], exc := none }
        | .ok idv =>
          if st.conn then
            if st.docs.any (fun d => docIdIs d idv) then
              { prints := [deletedText idv], ret := [],
                ops := [StoreOp.deleteOne idv], exc := none }
            else
              { prints := [deleteNoneText idv], ret := [],
                ops := [StoreOp.deleteOne idv], exc := none }
          else { prints := [deleteErrText .storeError], ret := [], ops := [], exc := none }

/-- Line 215 of the find handler:
`raw.split("|") if "|" in raw else (raw, "{}")`, followed by the two-way
tuple unpacking, which raises `ValueError` (`none` here) when the split
does not have exactly two segments. -/
def findSegs (raw : String) : Option (String × String) :=
  if '|' ∈ raw.data then
    match pySplitPipe raw.data with
    | [a, b] => some (⟨a⟩, ⟨b⟩)
    | _ => none
  else some (raw, "\x7b\x7d")

/-- `find_one`'s client-side treatment of its `filter` argument: a mapping
is used as is, `None` means no filter, and any other value is wrapped into
an `{"_id": value}` query before the cursor is built. -/
def effectiveFilter : JVal → List (String × JVal)
  | .obj ffs => ffs
  | .null => []
  | f => [("_id", f)]

/-- `find_one`'s client-side validation of its `projection` argument
(`Cursor.__init__` via `_fields_list_to_dict`): `None` and mappings pass,
and so does an iterable of field-name strings — a list whose elements are
all strings, or a string, whose characters count as one-character
strings.  Any other value (a number, a boolean, a list with a non-string
element) raises `TypeError` before any server round trip. -/
def validProjection : JVal → Bool
  | .null => true
  | .obj _ => true
  | .str _ => true
  | .arr xs =>
    xs.all (fun x =>
      match x with
      | .str _ => true
      | _ => false)
  | _ => false

/-- The server-side single-document lookup: first document whose fields
all equal the effective filter's fields.  Projection shaping of the
returned document is not modelled (no claim inspects the projected
content). -/
def findOneCall (docs : List Doc) (ffs : List (String × JVal)) : Option Doc :=
  docs.find? (fun d =>
    ffs.all (fun kv =>
      match objGet d kv.1 with
      | some v => JVal.beq v kv.2
      | none => false))

/-- `MongoAgent.mongo_find`, lines 192-228.  Nothing is wrapped in a
`try`: unpacking, normalizer, driver-validation and store exceptions all
escape.  `find_one` first wraps a non-mapping filter into an
`{"_id": value}` query and validates the projection's type client-side
(`TypeError` on an invalid projection, before connectivity matters); the
server round trip comes after.  The final `if result:` is Python
truthiness, so an empty returned dict also prints the no-match line. -/
def mongo_find (raw : String) (st : Store) : HOut :=
  match findSegs raw with
  | none => crashOut .valueError
  | some (fseg, pseg) =>
    match normalize_llm_json (pyStripWs fseg) with
    | .error e => crashOut e
    | .ok pf =>
      match normalize_llm_json (pyStripWs pseg) with
      | .error e => crashOut e
      | .ok pp =>
        if validProjection pp then
          if st.conn then
            match findOneCall st.docs (effectiveFilter pf) with
            | some d =>
              if d.isEmpty then
                { prints := [noMatchMsg], ret := [], ops := [StoreOp.findOne pf pp], exc := none }
              else
                { prints := [retrievedText fseg d], ret := [],
                  ops := [StoreOp.findOne pf pp], exc := none }
            | none =>
              { prints := [noMatchMsg], ret := [], ops := [StoreOp.findOne pf pp], exc := none }
          else crashOut .storeError
        else crashOut .typeError

/-- `self.supported_operations` of `MongoAgent`. -/
def supported_operations : List String := ["find", "insert", "update", "delete"]

/-- ASCII lowercasing of one character (`str.lower()`; the supported
operation names are ASCII). -/
def pyLowerChar (c : Char) : Char :=
  if 'A' ≤ c ∧ c ≤ 'Z' then Char.ofNat (c.toNat + 32) else c

/-- Python `str.lower()`. -/
def pyLower (s : String) : String := ⟨s.data.map pyLowerChar⟩

/-- `MongoAgent.operation_detection`, lines 34-51, as a function of the
oracle's reply text: the membership test `response.content.strip() in
self.supported_operations` followed by `.strip().lower()` on success, and
the `"invalid"` sentinel otherwise. -/
def operation_detection (resp : String) : String :=
  if pyStripWs resp ∈ supported_operations then pyLower (pyStripWs resp)
  else "invalid"

/-- `MongoAgent.router`, lines 53-67, as a function of the `mongo_op`
state value (`str | None`): the `match` statement with its wildcard arm. -/
def router (op : Option String) : String :=
  match op with
  | some s =>
    if s = "insert" then "mongo_insert"
    else if s = "find" then "mongo_find"
    else if s = "update" then "mongo_update"
    else if s = "delete" then "mongo_delete"
    else "invalid_operation"
  | none => "invalid_operation"

/-- Characters allowed in the keys and values of a strict flat mapping
text: letters, digits, space, underscore and hyphen.  These exclude every
character that the normalizer's strip, rewrite and rename stages react to
(quotes, braces, colon, comma). -/
def safeChar (c : Char) : Bool :=
  c.isAlpha || c.isDigit || c = ' ' || c = '_' || c = '-'

/-- A nonempty string of safe characters. -/
def safeStr (s : String) : Bool :=
  !s.data.isEmpty && s.data.all safeChar

/-- A flat string-to-string mapping with safe keys and values. -/
def safeFlat (m : List (String × String)) : Bool :=
  m.all (fun kv => safeStr kv.1 && safeStr kv.2)

/-- One serialized member, `"k": "v"`. -/
def entryChars (k v : String) : List Char :=
  dquote :: k.data ++ dquote :: ':' :: ' ' :: dquote :: v.data ++ [dquote]

/-- The serialized members of a flat mapping, separated by `, `. -/
def bodyChars : List (String × String) → List Char
  | [] => []
  | [kv] => entryChars kv.1 kv.2
  | kv :: rest => entryChars kv.1 kv.2 ++ ',' :: ' ' :: bodyChars rest

/-- The strict (double-quoted) serialization of a flat mapping — the
"already-valid strict structured text" of the specification. -/
def serializeFlat (m : List (String × String)) : String :=
  ⟨'\x7b' :: bodyChars m ++ ['\x7d']⟩

/-- The key rename performed textually by the `"id":` rewrite. -/
def renameId (m : List (String × String)) : List (String × String) :=
  m.map (fun kv => (if kv.1 = "id" then "_id" else kv.1, kv.2))

/-- Shape of every store operation the insert handler can execute: an
`insert_one` of a parsed document that contains the identifier field. -/
def insertOpOk : StoreOp → Bool
  | .insertOne fs => fs.any (fun kv => kv.1 == "_id")
  | _ => false

/-- Shape of every store operation the update handler can execute: an
`update_one` filtered by identifier that `$set`s only the description. -/
def updateOpOk : StoreOp → Bool
  | .updateOne _ _ => true
  | _ => false

/-- Shape of every store operation the delete handler can execute: a
`delete_one` filtered by identifier. -/
def deleteOpOk : StoreOp → Bool
  | .deleteOne _ => true
  | _ => false

/-! ## Helper lemmas about the split on the delimiter -/

theorem pySplitPipe_ne_nil (cs : List Char) : pySplitPipe cs ≠ [] := by
  induction cs with
  | nil => simp [pySplitPipe]
  | cons c rest ih =>
    simp only [pySplitPipe]
    split
    · simp
    · split
      · simp
      · simp

theorem pySplitPipe_length (cs : List Char) :
    (pySplitPipe cs).length = cs.count '|' + 1 := by
  induction cs with
  | nil => simp [pySplitPipe]
  | cons c rest ih =>
    simp only [pySplitPipe]
    split
    · rename_i h
      subst h
      simp [List.count_cons, ih]
    · rename_i h
      split
      · rename_i heq
        exact absurd heq (pySplitPipe_ne_nil rest)
      · rename_i g gs heq
        have hl : (pySplitPipe rest).length = gs.length + 1 := by rw [heq]; rfl
        have hc : (c == '|') = false := by simp [h]
        simp [List.count_cons, hc]
        omega

theorem one_lt_pySplitPipe_length (cs : List Char) (h : '|' ∈ cs) :
    1 < (pySplitPipe cs).length := by
  rw [pySplitPipe_length]
  have : 0 < cs.count '|' := List.count_pos_iff.mpr h
  omega

/-! ## Claim theorems: concrete evaluations and counterexamples -/

/-- Claim C5: the normalizer maps `{'_id': 'a', 'description': 'b'}` to the
mapping `{"_id": "a", "description": "b"}` and `{'id': 'x'}` to
`{"_id": "x"}`, via quote stripping, the two quote rewrites, the `id`
rename, and parsing. -/
theorem c5_normalizer_examples :
    normalize_llm_json "\x7b'_id': 'a', 'description': 'b'\x7d"
      = .ok (.obj [("_id", .str "a"), ("description", .str "b")]) ∧
    normalize_llm_json "\x7b'id': 'x'\x7d" = .ok (.obj [("_id", .str "x")]) :=
  ⟨rfl, rfl⟩

/-- Claim C1 is false as stated: the membership test
`response.content.strip() in self.supported_operations` is case-sensitive,
so the uppercase supported name `"FIND"` is classified `"invalid"`, not
normalized to `"find"`. -/
theorem c1_counterexample :
    operation_detection "FIND" ≠ "find" ∧ operation_detection "FIND" = "invalid" := by
  refine ⟨?_, rfl⟩
  decide

/-- Claim C1 amended: the classifier accepts exactly the supported names
written in their canonical lowercase form (modulo surrounding whitespace)
and returns them unchanged — the trailing `.lower()` is a no-op on every
accepted answer; every other reply, including other letter cases of
supported names and the literal `"none"`/`"None"`, yields `"invalid"`. -/
theorem c1_amended (s : String) :
    (pyStripWs s ∈ supported_operations → operation_detection s = pyStripWs s) ∧
    (pyStripWs s ∉ supported_operations → operation_detection s = "invalid") := by
  constructor
  · intro h
    unfold operation_detection
    rw [if_pos h]
    simp only [supported_operations, List.mem_cons, List.not_mem_nil, or_false] at h
    rcases h with h | h | h | h <;> rw [h] <;> rfl
  · intro h
    unfold operation_detection
    rw [if_neg h]

/-- Witness for `c1_amended` at the accepted answer `" find "` and the
rejected answer `"None"`. -/
theorem c1_amended_witness :
    operation_detection " find " = "find" ∧ operation_detection "None" = "invalid" := by
  constructor
  · have h := (c1_amended " find ").1 (by decide)
    rw [h]
    rfl
  · exact (c1_amended "None").2 (by decide)

/-- Claim C2 is false as stated: a `ParseError` raised by the normalizer
inside the insert handler is not caught at the handler boundary — it
escapes the handler (and would crash the interactive loop). -/
theorem c2_counterexample :
    (mongo_insert "nope" ⟨true, []⟩).exc = some PyErr.parseError := rfl

/-- Claim C3 is false as stated: the insert handler passes the whole
parsed document to `insert_one`, so a store write can create a field other
than the identifier and the description (here `"extra"`). -/
theorem c3_counterexample :
    ((mongo_insert "\x7b'_id': 'a', 'extra': 'b'\x7d" ⟨true, []⟩).ops.all
      (fun o => (writeFields o).all (fun k => k == "_id" || k == "description"))) = false :=
  rfl

/-- Claim C6 is false as stated: the normalizer returns a parsed mapping,
so the literal composition `normalize(normalize(x))` applies it to a
non-string and raises `AttributeError` even on the already-valid strict
text `{"_id": "x"}` — the two sides can never be equal. -/
theorem c6_counterexample :
    (normalizePy (JVal.str "\x7b\"_id\": \"x\"\x7d")).bind normalizePy
      ≠ normalizePy (JVal.str "\x7b\"_id\": \"x\"\x7d") := by
  intro h
  have h2 : (Except.error PyErr.attributeError : Except PyErr JVal)
      = Except.ok (JVal.obj [("_id", JVal.str "x")]) := h
  exact Except.noConfusion h2

/-- Claim C7 is false as stated: on a reply with two delimiters the
two-way unpacking of the split raises `ValueError` and the find handler
executes no lookup at all. -/
theorem c7_counterexample :
    (mongo_find "a|b|c" ⟨true, []⟩).ops = [] ∧
    (mongo_find "a|b|c" ⟨true, []⟩).exc = some PyErr.valueError :=
  ⟨rfl, rfl⟩

/-- Claim C8 is false as stated: on an unparsable reply the find handler
raises instead of reporting either a matched document or the no-match
message — it prints nothing. -/
theorem c8_counterexample :
    (mongo_find "garbage" ⟨true, []⟩).prints = [] ∧
    (mongo_find "garbage" ⟨true, []⟩).exc = some PyErr.parseError :=
  ⟨rfl, rfl⟩

/-- Claim C4: a raw oracle reply containing the delimiter splits into two
or more segments, and each mutating handler then takes the multi-document
rejection path: it prints the multiple-documents message, returns the
multiple-documents message, executes no store operation, and raises
nothing. -/
theorem c4_multi_document_rejection (raw : String) (st : Store) (h : '|' ∈ raw.data) :
    mongo_insert raw st =
      { prints := [multiDetectedInsert], ret := [multiDetectedInsert], ops := [], exc := none } ∧
    mongo_update raw st =
      { prints := [multiDetectedInsert], ret := [multiDetectedDelete], ops := [], exc := none } ∧
    mongo_delete raw st =
      { prints := [multiDetectedInsert], ret := [multiDetectedDelete], ops := [], exc := none } := by
  have hlen := one_lt_pySplitPipe_length raw.data h
  refine ⟨?_, ?_, ?_⟩
  · unfold mongo_insert
    rw [if_pos hlen]
  · unfold mongo_update
    rw [if_pos hlen]
  · unfold mongo_delete
    rw [if_pos hlen]

/-- Witness for `c4_multi_document_rejection` at the reply `"a|b"`. -/
theorem c4_witness :
    mongo_insert "a|b" ⟨true, []⟩ =
      { prints := [multiDetectedInsert], ret := [multiDetectedInsert], ops := [], exc := none } :=
  (c4_multi_document_rejection "a|b" ⟨true, []⟩ (by decide)).1

/-- Claim C10: a reply to the find handler holding two or more delimiter
characters makes the two-way unpacking of the split fail with
`ValueError`, so the handler executes no store lookup. -/
theorem c10_find_excess_delimiters (raw : String) (st : Store)
    (h : 2 ≤ raw.data.count '|') :
    mongo_find raw st = crashOut PyErr.valueError ∧ (mongo_find raw st).ops = [] := by
  have hmem : '|' ∈ raw.data := List.count_pos_iff.mp (by omega)
  have hsegs : findSegs raw = none := by
    unfold findSegs
    rw [if_pos hmem]
    have hlen : 3 ≤ (pySplitPipe raw.data).length := by
      rw [pySplitPipe_length]
      omega
    have key : ∀ l : List (List Char), 3 ≤ l.length →
        (match l with
         | [a, b] => some ((⟨a⟩ : String), (⟨b⟩ : String))
         | _ => none) = (none : Option (String × String)) := by
      intro l hl
      match l with
      | [] => simp at hl
      | [a] => simp at hl
      | [a, b] => simp at hl
      | a :: b :: c :: gs => rfl
    exact key _ hlen
  have hcrash : mongo_find raw st = crashOut PyErr.valueError := by
    unfold mongo_find
    rw [hsegs]
  exact ⟨hcrash, by rw [hcrash]; rfl⟩

/-- Witness for `c10_find_excess_delimiters` at the reply `"x|y|z"`. -/
theorem c10_witness :
    mongo_find "x|y|z" ⟨true, []⟩ = crashOut PyErr.valueError :=
  (c10_find_excess_delimiters "x|y|z" ⟨true, []⟩ (by decide)).1

/-- Claim C9: the router is a pure total function on the classified
operation value: each of the four supported names routes to the
correspondingly named handler, and every other value — `"invalid"`, any
other string, or the absent value — routes to the invalid-operation
handler. -/
theorem c9_router_total :
    router (some "insert") = "mongo_insert" ∧
    router (some "find") = "mongo_find" ∧
    router (some "update") = "mongo_update" ∧
    router (some "delete") = "mongo_delete" ∧
    ∀ op : Option String,
      op ∉ [some "insert", some "find", some "update", some "delete"] →
      router op = "invalid_operation" := by
  refine ⟨rfl, rfl, rfl, rfl, ?_⟩
  intro op h
  match op with
  | none => rfl
  | some s =>
    simp only [List.mem_cons, List.not_mem_nil, or_false, not_or, Option.some.injEq] at h
    obtain ⟨h1, h2, h3, h4⟩ := h
    show (if s = "insert" then "mongo_insert"
          else if s = "find" then "mongo_find"
          else if s = "update" then "mongo_update"
          else if s = "delete" then "mongo_delete"
          else "invalid_operation") = "invalid_operation"
    rw [if_neg h1, if_neg h2, if_neg h3, if_neg h4]

/-- Witness for `c9_router_total` at the classifier sentinel `"invalid"`. -/
theorem c9_router_witness : router (some "invalid") = "invalid_operation" :=
  c9_router_total.2.2.2.2 (some "invalid") (by decide)

theorem truthyAndHasKey_obj_true {fs : List (String × JVal)} {k : String}
    (h : truthyAndHasKey (JVal.obj fs) k = .ok true) :
    fs.any (fun kv => kv.1 == k) = true := by
  unfold truthyAndHasKey at h
  split at h
  · simpa [pyIn] using h
  · simp at h

/-- Claim C3 amended: the identifier is mandatory on every path that
reaches the store — every insert writes a document containing `_id`, every
update filters by `_id` and `$set`s exactly the `description` field, and
every delete filters by `_id` and writes no field — but the insert handler
passes the whole parsed document to the store, so an insert may also
create fields beyond the identifier and the description
(`c3_counterexample`). -/
theorem c3_amended (raw : String) (st : Store) :
    (mongo_insert raw st).ops.all insertOpOk = true ∧
    (mongo_update raw st).ops.all updateOpOk = true ∧
    (mongo_delete raw st).ops.all deleteOpOk = true ∧
    ((mongo_update raw st).ops ++ (mongo_delete raw st).ops).all
      (fun o => (writeFields o).all (fun k => k == "description")) = true := by
  have hins : (mongo_insert raw st).ops.all insertOpOk = true := by
    unfold mongo_insert
    repeat' split
    all_goals try rfl
    simp only [List.all_cons, List.all_nil, Bool.and_true, insertOpOk]
    exact truthyAndHasKey_obj_true (by assumption)
  have hupd : (mongo_update raw st).ops.all updateOpOk = true := by
    unfold mongo_update
    repeat' split
    all_goals rfl
  have hdel : (mongo_delete raw st).ops.all deleteOpOk = true := by
    unfold mongo_delete
    repeat' split
    all_goals rfl
  have hupdw : (mongo_update raw st).ops.all
      (fun o => (writeFields o).all (fun k => k == "description")) = true := by
    unfold mongo_update
    repeat' split
    all_goals rfl
  have hdelw : (mongo_delete raw st).ops.all
      (fun o => (writeFields o).all (fun k => k == "description")) = true := by
    unfold mongo_delete
    repeat' split
    all_goals rfl
  refine ⟨hins, hupd, hdel, ?_⟩
  rw [List.all_append, hupdw, hdelw]
  rfl

/-- Claim C7 amended: the find handler splits the raw reply on the
delimiter into a filter segment and a projection segment, the projection
defaulting to the empty object text when the delimiter is absent; provided
the two-way unpacking succeeds, each segment normalizes successfully, the
parsed projection is of a type the driver accepts (a mapping, a list of
field-name strings, a string, or null) and the store is reachable, it
executes exactly one single-document lookup with the parsed filter and
projection.  When the unpacking fails the handler raises `ValueError`
(`c7_counterexample`), when a normalization fails it raises `ParseError`,
and when the projection is of any other type (such as a number) the driver
raises `TypeError` client-side; in every such case no lookup is
executed. -/
theorem c7_amended (raw : String) (st : Store) :
    (∀ a b f p, findSegs raw = some (a, b) →
      normalize_llm_json (pyStripWs a) = .ok f →
      normalize_llm_json (pyStripWs b) = .ok p →
      validProjection p = true →
      st.conn = true →
      (mongo_find raw st).ops = [StoreOp.findOne f p]) ∧
    (∀ a b f p, findSegs raw = some (a, b) →
      normalize_llm_json (pyStripWs a) = .ok f →
      normalize_llm_json (pyStripWs b) = .ok p →
      validProjection p = false →
      (mongo_find raw st).exc = some PyErr.typeError ∧ (mongo_find raw st).ops = []) ∧
    ('|' ∉ raw.data → findSegs raw = some (raw, "\x7b\x7d")) := by
  refine ⟨?_, ?_, ?_⟩
  · intro a b f p hs hf hpj hvp hc
    unfold mongo_find
    simp only [hs, hf, hpj, hvp, hc]
    repeat' split
    all_goals first | rfl | simp_all
  · intro a b f p hs hf hpj hvp
    unfold mongo_find
    simp only [hs, hf, hpj]
    rw [if_neg (by simp [hvp])]
    exact ⟨rfl, rfl⟩
  · intro hnp
    unfold findSegs
    rw [if_neg hnp]

/-- Witness for `c7_amended`: a one-segment reply with a parsable filter
yields exactly one lookup with the parsed filter and the default empty
projection, while the reply whose projection segment parses to the number
5 raises `TypeError` with no lookup. -/
theorem c7_amended_witness :
    (mongo_find "\x7b'a': 'b'\x7d" ⟨true, []⟩).ops
      = [StoreOp.findOne (JVal.obj [("a", JVal.str "b")]) (JVal.obj [])] ∧
    (mongo_find "\x7b\x7d|5" ⟨true, []⟩).exc = some PyErr.typeError :=
  ⟨(c7_amended "\x7b'a': 'b'\x7d" ⟨true, []⟩).1 "\x7b'a': 'b'\x7d" "\x7b\x7d"
      (JVal.obj [("a", JVal.str "b")]) (JVal.obj []) rfl rfl rfl rfl rfl,
    ((c7_amended "\x7b\x7d|5" ⟨true, []⟩).2.1 "\x7b\x7d" "5"
      (JVal.obj []) (JVal.num 5) rfl rfl rfl rfl).1⟩

/-- Claim C8 amended: the find handler never mutates the document store —
on every utterance, oracle reply and store state its operation trace
contains no insert, update or delete — and whenever it completes without
an exception it reports either the retrieved document or the no-match
message.  On exception paths (unparsable reply, excess delimiters, an
invalid projection type, connectivity failure) it reports nothing
(`c8_counterexample`). -/
theorem c8_amended (raw : String) (st : Store) :
    (mongo_find raw st).ops.all (fun o => !isWrite o) = true ∧
    ((mongo_find raw st).exc = none →
      (mongo_find raw st).prints = [noMatchMsg] ∨
      ∃ fseg d, (mongo_find raw st).prints = [retrievedText fseg d]) := by
  constructor
  · unfold mongo_find
    repeat' split
    all_goals rfl
  · unfold mongo_find
    repeat' split
    all_goals intro hexc
    all_goals try (left; rfl)
    all_goals try (right; exact ⟨_, _, rfl⟩)
    all_goals simp [crashOut] at hexc

/-- Witness for `c8_amended`: a completed lookup on an empty store reports
the no-match message. -/
theorem c8_amended_witness :
    (mongo_find "\x7b\x7d" ⟨true, []⟩).prints = [noMatchMsg] ∨
    ∃ fseg d, (mongo_find "\x7b\x7d" ⟨true, []⟩).prints = [retrievedText fseg d] :=
  (c8_amended "\x7b\x7d" ⟨true, []⟩).2 rfl

theorem not_one_lt_pySplitPipe_length (cs : List Char) (h : '|' ∉ cs) :
    ¬ 1 < (pySplitPipe cs).length := by
  rw [pySplitPipe_length]
  have : cs.count '|' = 0 := List.count_eq_zero.mpr h
  omega

theorem any_id_false {fs : List (String × JVal)} {k : String}
    (h : fs.all (fun kv => kv.1 != k) = true) :
    fs.any (fun kv => kv.1 == k) = false := by
  simp only [List.all_eq_true, bne_iff_ne] at h
  simp only [List.any_eq_false, beq_iff_eq]
  exact h

theorem truthyAndHasKey_obj_false {fs : List (String × JVal)} {k : String}
    (h : fs.all (fun kv => kv.1 != k) = true) :
    truthyAndHasKey (JVal.obj fs) k = .ok false := by
  unfold truthyAndHasKey
  split
  · simp [pyIn, any_id_false h]
  · rfl

theorem updateCond_obj_false {fs : List (String × JVal)}
    (h : fs.all (fun kv => kv.1 != "_id") = true) :
    updateCond (JVal.obj fs) = .ok false := by
  unfold updateCond
  split
  · simp [pyIn, any_id_false h]
  · rfl

theorem truthyAndHasKey_of_any {fs : List (String × JVal)} {k : String}
    (h : fs.any (fun kv => kv.1 == k) = true) :
    truthyAndHasKey (JVal.obj fs) k = .ok true := by
  have hne : fs.isEmpty = false := by
    cases fs with
    | nil => simp at h
    | cons a l => rfl
  unfold truthyAndHasKey
  rw [if_pos (by simp [truthy, hne])]
  simp [pyIn, h]

theorem updateCond_of_any {fs : List (String × JVal)}
    (hid : fs.any (fun kv => kv.1 == "_id") = true)
    (hdesc : fs.any (fun kv => kv.1 == "description") = true) :
    updateCond (JVal.obj fs) = .ok true := by
  have hne : fs.isEmpty = false := by
    cases fs with
    | nil => simp at hid
    | cons a l => rfl
  unfold updateCond
  rw [if_pos (by simp [truthy, hne])]
  simp [pyIn, hid, hdesc]

theorem pyGetItem_of_any {fs : List (String × JVal)} {k : String}
    (h : fs.any (fun kv => kv.1 == k) = true) :
    ∃ v, pyGetItem (JVal.obj fs) k = .ok v := by
  have hsome : (fs.find? (fun kv => kv.1 == k)).isSome := by
    rw [List.find?_isSome]
    simpa [List.any_eq_true] using h
  obtain ⟨kv, hkv⟩ := Option.isSome_iff_exists.mp hsome
  refine ⟨kv.2, ?_⟩
  show (match fs.find? (fun kv => kv.1 == k) with
        | some kv => Except.ok kv.2
        | none => Except.error PyErr.typeError) = Except.ok kv.2
  rw [hkv]

/-- Claim C2 amended: the multi-document path and the missing-field
validation path end in a user-visible message in every mutating handler,
and store failures during insert and delete are caught and logged inline;
but a normalizer `ParseError` escapes all four handlers uncaught, and a
store connectivity failure escapes the update and find handlers uncaught
(`c2_counterexample`).  Conjunct by conjunct: the multi-document path
raises nothing; a failing normalizer crashes insert, update, delete and
find alike; a parsed mapping without the identifier (or an empty mapping)
yields the cannot-determine message with no exception; with the
identifier present but the store unreachable, insert and delete print an
inline error and raise nothing while update and find let the store error
escape. -/
theorem c2_amended (raw : String) (st : Store) (e : PyErr) (fs : List (String × JVal)) :
    ('|' ∈ raw.data →
      (mongo_insert raw st).exc = none ∧ (mongo_update raw st).exc = none ∧
      (mongo_delete raw st).exc = none) ∧
    ('|' ∉ raw.data → normalize_llm_json (pyStripWs raw) = .error e →
      (mongo_insert raw st).exc = some e ∧ (mongo_update raw st).exc = some e ∧
      (mongo_delete raw st).exc = some e ∧ (mongo_find raw st).exc = some e) ∧
    ('|' ∉ raw.data → normalize_llm_json (pyStripWs raw) = .ok (.obj fs) →
      fs.all (fun kv => kv.1 != "_id") = true →
      (mongo_insert raw st).exc = none ∧ (mongo_insert raw st).prints = [cantInsertMsg] ∧
      (mongo_delete raw st).exc = none ∧ (mongo_delete raw st).prints = [cantDeleteMsg] ∧
      (mongo_update raw st).exc = none ∧ (mongo_update raw st).prints = [cantUpdateMsg]) ∧
    ('|' ∉ raw.data → normalize_llm_json (pyStripWs raw) = .ok (.obj fs) →
      fs.any (fun kv => kv.1 == "_id") = true → st.conn = false →
      (mongo_insert raw st).exc = none ∧
      (mongo_insert raw st).prints = [insertErrText .storeError] ∧
      (mongo_delete raw st).exc = none ∧
      (mongo_delete raw st).prints = [deleteErrText .storeError] ∧
      (fs.any (fun kv => kv.1 == "description") = true →
        (mongo_update raw st).exc = some .storeError) ∧
      (mongo_find raw st).exc = some .storeError) := by
  refine ⟨?_, ?_, ?_, ?_⟩
  · intro hp
    have hlen := one_lt_pySplitPipe_length raw.data hp
    refine ⟨?_, ?_, ?_⟩
    · unfold mongo_insert
      rw [if_pos hlen]
    · unfold mongo_update
      rw [if_pos hlen]
    · unfold mongo_delete
      rw [if_pos hlen]
  · intro hp hne
    have hlen := not_one_lt_pySplitPipe_length raw.data hp
    have hsegs : findSegs raw = some (raw, "\x7b\x7d") := by
      unfold findSegs
      rw [if_neg hp]
    refine ⟨?_, ?_, ?_, ?_⟩
    · unfold mongo_insert
      rw [if_neg hlen]
      simp only [hne]
      rfl
    · unfold mongo_update
      rw [if_neg hlen]
      simp only [hne]
      rfl
    · unfold mongo_delete
      rw [if_neg hlen]
      simp only [hne]
      rfl
    · unfold mongo_find
      simp only [hsegs, hne]
      rfl
  · intro hp hok hall
    have hlen := not_one_lt_pySplitPipe_length raw.data hp
    refine ⟨?_, ?_, ?_, ?_, ?_, ?_⟩
    · unfold mongo_insert
      rw [if_neg hlen]
      simp only [hok, truthyAndHasKey_obj_false hall]
    · unfold mongo_insert
      rw [if_neg hlen]
      simp only [hok, truthyAndHasKey_obj_false hall]
    · unfold mongo_delete
      rw [if_neg hlen]
      simp only [hok, truthyAndHasKey_obj_false hall]
    · unfold mongo_delete
      rw [if_neg hlen]
      simp only [hok, truthyAndHasKey_obj_false hall]
    · unfold mongo_update
      rw [if_neg hlen]
      simp only [hok, updateCond_obj_false hall]
    · unfold mongo_update
      rw [if_neg hlen]
      simp only [hok, updateCond_obj_false hall]
  · intro hp hok hany hconn
    have hlen := not_one_lt_pySplitPipe_length raw.data hp
    obtain ⟨idv, hid⟩ := pyGetItem_of_any hany
    have hsegs : findSegs raw = some (raw, "\x7b\x7d") := by
      unfold findSegs
      rw [if_neg hp]
    refine ⟨?_, ?_, ?_, ?_, ?_, ?_⟩
    · unfold mongo_insert
      rw [if_neg hlen]
      simp only [hok, truthyAndHasKey_of_any hany, hconn]
      rfl
    · unfold mongo_insert
      rw [if_neg hlen]
      simp only [hok, truthyAndHasKey_of_any hany, hconn]
      rfl
    · unfold mongo_delete
      rw [if_neg hlen]
      simp only [hok, truthyAndHasKey_of_any hany, hid, hconn]
      rfl
    · unfold mongo_delete
      rw [if_neg hlen]
      simp only [hok, truthyAndHasKey_of_any hany, hid, hconn]
      rfl
    · intro hdesc
      obtain ⟨dv, hdv⟩ := pyGetItem_of_any hdesc
      unfold mongo_update
      rw [if_neg hlen]
      simp only [hok, updateCond_of_any hany hdesc, hid, hdv, hconn]
      rfl
    · unfold mongo_find
      simp only [hsegs, hok, hconn]
      rfl

/-- Witness for `c2_amended`: with a parsable reply carrying both fields
and the store unreachable, the insert handler raises nothing while the
update handler lets the store error escape. -/
theorem c2_amended_witness :
    (mongo_insert "\x7b'_id': 'a', 'description': 'b'\x7d" ⟨false, []⟩).exc = none ∧
    (mongo_update "\x7b'_id': 'a', 'description': 'b'\x7d" ⟨false, []⟩).exc
      = some PyErr.storeError := by
  have h := (c2_amended "\x7b'_id': 'a', 'description': 'b'\x7d" ⟨false, []⟩ PyErr.parseError
      [("_id", JVal.str "a"), ("description", JVal.str "b")]).2.2.2
      (by decide) (by rfl) (by rfl) rfl
  exact ⟨h.1, h.2.2.2.2.1 (by rfl)⟩

/-! ## The textual stage on strict flat serializations (for claim C6) -/

theorem stripP_eq_self (p : Char → Bool) (a b : Char) (mid : List Char)
    (ha : p a = false) (hb : p b = false) :
    stripP p (a :: (mid ++ [b])) = a :: (mid ++ [b]) := by
  unfold stripP
  rw [List.dropWhile_cons]
  simp only [ha, Bool.false_eq_true, if_false]
  rw [show (a :: (mid ++ [b])).reverse = b :: (mid.reverse ++ [a]) by simp]
  rw [List.dropWhile_cons]
  simp only [hb, Bool.false_eq_true, if_false]
  simp

theorem stripQuotes_flat (mid : List Char) :
    stripQuotes ('\x7b' :: (mid ++ ['\x7d'])) = '\x7b' :: (mid ++ ['\x7d']) := by
  unfold stripQuotes
  rw [stripP_eq_self isPyWs _ _ _ (by decide) (by decide)]
  rw [stripP_eq_self _ _ _ _ (by decide) (by decide)]
  rw [stripP_eq_self _ _ _ _ (by decide) (by decide)]

theorem safeChar_ne_squote {c : Char} (h : safeChar c = true) : c ≠ squote := by
  intro he
  subst he
  exact absurd h (by decide)

theorem safeChar_ne_dquote {c : Char} (h : safeChar c = true) : c ≠ dquote := by
  intro he
  subst he
  exact absurd h (by decide)

theorem safeStr_chars {s : String} (h : safeStr s = true) :
    ∀ c ∈ s.data, safeChar c = true := by
  simp only [safeStr, Bool.and_eq_true, List.all_eq_true] at h
  exact h.2

theorem entryChars_no_squote {k v : String} (hk : safeStr k = true) (hv : safeStr v = true) :
    ∀ c ∈ entryChars k v, c ≠ squote := by
  intro c hc
  simp only [entryChars, List.mem_cons, List.mem_append, List.mem_singleton] at hc
  casesm* _ ∨ _
  all_goals first
    | (subst_vars; decide)
    | (exact safeChar_ne_squote (safeStr_chars hk c (by assumption)))
    | (exact safeChar_ne_squote (safeStr_chars hv c (by assumption)))
    | simp_all

theorem safeFlat_cons {kv : String × String} {rest : List (String × String)}
    (hm : safeFlat (kv :: rest) = true) :
    safeStr kv.1 = true ∧ safeStr kv.2 = true ∧ safeFlat rest = true := by
  simp only [safeFlat, List.all_cons, Bool.and_eq_true] at hm
  exact ⟨hm.1.1, hm.1.2, hm.2⟩

theorem bodyChars_no_squote {m : List (String × String)} (hm : safeFlat m = true) :
    ∀ c ∈ bodyChars m, c ≠ squote := by
  induction m with
  | nil =>
    intro c hc
    simp [bodyChars] at hc
  | cons kv rest ih =>
    obtain ⟨hk, hv, hrest⟩ := safeFlat_cons hm
    cases rest with
    | nil =>
      intro c hc
      exact entryChars_no_squote hk hv c (by simpa [bodyChars] using hc)
    | cons kv2 rest2 =>
      intro c hc
      simp only [bodyChars, List.mem_append, List.mem_cons] at hc
      casesm* _ ∨ _
      all_goals first
        | (subst_vars; decide)
        | (exact entryChars_no_squote hk hv c (by assumption))
        | (exact ih hrest c (by assumption))

theorem p2match_none {cs : List Char} (h : ∀ c ∈ cs, c ≠ squote) : p2match cs = none := by
  unfold p2match
  cases hd : cs.dropWhile isPyWs with
  | nil => rfl
  | cons c r2 =>
    have hc : c ∈ cs :=
      (List.dropWhile_sublist isPyWs).subset (hd ▸ List.mem_cons_self c r2)
    simp only [hd]
    rw [if_neg (h c hc)]

theorem p3match_none {cs : List Char} (h : ∀ c ∈ cs, c ≠ squote) : p3match cs = none := by
  unfold p3match
  cases hd : cs.dropWhile isPyWs with
  | nil => rfl
  | cons c r2 =>
    have hc : c ∈ cs :=
      (List.dropWhile_sublist isPyWs).subset (hd ▸ List.mem_cons_self c r2)
    simp only [hd]
    rw [if_neg (h c hc)]

theorem pass2Fuel_id {cs : List Char} (h : ∀ c ∈ cs, c ≠ squote) :
    ∀ n, pass2Fuel n cs = cs := by
  induction cs with
  | nil =>
    intro n
    cases n <;> rfl
  | cons c rest ih =>
    intro n
    cases n with
    | zero => rfl
    | succ n =>
      have hr : ∀ x ∈ rest, x ≠ squote := fun x hx => h x (List.mem_cons_of_mem _ hx)
      have hm : p2match rest = none := p2match_none hr
      show pass2Fuel (n + 1) (c :: rest) = c :: rest
      simp only [pass2Fuel, hm, ite_self]
      rw [ih hr n]

theorem pass3Fuel_id {cs : List Char} (h : ∀ c ∈ cs, c ≠ squote) :
    ∀ n, pass3Fuel n cs = cs := by
  induction cs with
  | nil =>
    intro n
    cases n <;> rfl
  | cons c rest ih =>
    intro n
    cases n with
    | zero => rfl
    | succ n =>
      have hr : ∀ x ∈ rest, x ≠ squote := fun x hx => h x (List.mem_cons_of_mem _ hx)
      have hm : p3match rest = none := p3match_none hr
      show pass3Fuel (n + 1) (c :: rest) = c :: rest
      simp only [pass3Fuel, hm, ite_self]
      rw [ih hr n]

theorem pass4Fuel_nil : ∀ n, pass4Fuel n [] = [] := by
  intro n
  cases n <;> rfl

theorem pass4Fuel_step {c : Char} {rest : List Char} (n : Nat)
    (h : ¬(c = dquote ∧ startsWithChars ['i', 'd', dquote, ':'] rest = true)) :
    pass4Fuel (n + 1) (c :: rest) = c :: pass4Fuel n rest := by
  simp only [pass4Fuel]
  rw [if_neg h]

theorem pass4Fuel_hit (n : Nat) (rest0 : List Char) :
    pass4Fuel (n + 1) (dquote :: 'i' :: 'd' :: dquote :: ':' :: rest0)
      = dquote :: '_' :: 'i' :: 'd' :: dquote :: ':' :: pass4Fuel n rest0 := rfl

theorem startsWith4 {a b c d : Char} {l : List Char}
    (h : startsWithChars [a, b, c, d] l = true) :
    ∃ r, l = a :: b :: c :: d :: r := by
  match l with
  | [] => simp [startsWithChars] at h
  | [x] => simp [startsWithChars] at h
  | [x, y] => simp [startsWithChars] at h
  | [x, y, z] => simp [startsWithChars] at h
  | x :: y :: z :: w :: r =>
    simp only [startsWithChars, Bool.and_eq_true, beq_iff_eq] at h
    obtain ⟨h1, h2, h3, h4, -⟩ := h
    subst h1
    subst h2
    subst h3
    subst h4
    exact ⟨r, rfl⟩

theorem pass4Fuel_congr (k : Nat) :
    ∀ (cs : List Char) (n m : Nat), cs.length ≤ k → cs.length ≤ n → cs.length ≤ m →
      pass4Fuel n cs = pass4Fuel m cs := by
  induction k with
  | zero =>
    intro cs n m h1 _ _
    have hnil : cs = [] := List.length_eq_zero.mp (Nat.le_zero.mp h1)
    subst hnil
    rw [pass4Fuel_nil, pass4Fuel_nil]
  | succ k ih =>
    intro cs n m h1 hn hm
    cases cs with
    | nil => rw [pass4Fuel_nil, pass4Fuel_nil]
    | cons c rest =>
      simp only [List.length_cons] at h1 hn hm
      obtain ⟨n', rfl⟩ : ∃ n', n = n' + 1 := ⟨n - 1, by omega⟩
      obtain ⟨m', rfl⟩ : ∃ m', m = m' + 1 := ⟨m - 1, by omega⟩
      by_cases hcond : (c = dquote ∧ startsWithChars ['i', 'd', dquote, ':'] rest = true)
      · obtain ⟨hc, hsw⟩ := hcond
        subst hc
        obtain ⟨rest0, rfl⟩ := startsWith4 hsw
        simp only [List.length_cons] at h1 hn hm
        rw [pass4Fuel_hit n' rest0, pass4Fuel_hit m' rest0]
        rw [ih rest0 n' m' (by omega) (by omega) (by omega)]
      · rw [pass4Fuel_step n' hcond, pass4Fuel_step m' hcond]
        rw [ih rest n' m' (by omega) (by omega) (by omega)]

theorem pass4_eq_fuel {cs : List Char} {n : Nat} (h : cs.length ≤ n) :
    pass4Fuel n cs = pass4 cs :=
  pass4Fuel_congr cs.length cs n cs.length (Nat.le_refl _) h (Nat.le_refl _)

theorem pass4_cons_nohit {c : Char} {rest : List Char}
    (h : ¬(c = dquote ∧ startsWithChars ['i', 'd', dquote, ':'] rest = true)) :
    pass4 (c :: rest) = c :: pass4 rest := by
  show pass4Fuel (rest.length + 1) (c :: rest) = c :: pass4 rest
  rw [pass4Fuel_step rest.length h]
  rfl

theorem pass4_hit (rest0 : List Char) :
    pass4 (dquote :: 'i' :: 'd' :: dquote :: ':' :: rest0)
      = dquote :: '_' :: 'i' :: 'd' :: dquote :: ':' :: pass4 rest0 := by
  show pass4Fuel (rest0.length + 4 + 1) (dquote :: 'i' :: 'd' :: dquote :: ':' :: rest0) = _
  rw [pass4Fuel_hit (rest0.length + 4) rest0]
  rw [pass4_eq_fuel (by omega)]

theorem pass4_skip {cs : List Char} (h : ∀ c ∈ cs, c ≠ dquote) (tail : List Char) :
    pass4 (cs ++ tail) = cs ++ pass4 tail := by
  induction cs with
  | nil => simp
  | cons c rest ih =>
    rw [List.cons_append]
    rw [pass4_cons_nohit (fun hc => h c (List.mem_cons_self _ _) hc.1)]
    rw [ih (fun x hx => h x (List.mem_cons_of_mem _ hx))]
    rfl

theorem pass4_quoted {v : List Char} (hv : ∀ c ∈ v, safeChar c = true) (hne : v ≠ [])
    {tail : List Char}
    (ht : tail = [] ∨ ∃ t rest2, tail = t :: rest2 ∧ (t = ',' ∨ t = '\x7d')) :
    pass4 (dquote :: (v ++ dquote :: tail)) = dquote :: (v ++ dquote :: pass4 tail) := by
  have hnd : ∀ c ∈ v, c ≠ dquote := fun c hc => safeChar_ne_dquote (hv c hc)
  have hclose : ¬(dquote = dquote ∧ startsWithChars ['i', 'd', dquote, ':'] tail = true) := by
    intro hc
    obtain ⟨r, hr⟩ := startsWith4 hc.2
    rcases ht with rfl | ⟨t, rest2, rfl, hti⟩
    · simp at hr
    · rcases hti with rfl | rfl <;> simp at hr
  have hopen :
      ¬(dquote = dquote ∧ startsWithChars ['i', 'd', dquote, ':'] (v ++ dquote :: tail) = true) := by
    intro hc
    obtain ⟨r, hr⟩ := startsWith4 hc.2
    match v, hne, hv with
    | [a], _, hv =>
      simp only [List.cons_append, List.nil_append, List.cons.injEq] at hr
      exact absurd hr.2.1 (by decide)
    | [a, b], _, hv =>
      simp only [List.cons_append, List.nil_append, List.cons.injEq] at hr
      have h4 := hr.2.2.2
      rcases ht with rfl | ⟨t, rest2, rfl, hti⟩
      · simp at h4
      · rcases hti with rfl | rfl <;> simp at h4
    | a :: b :: c3 :: v', _, hv =>
      simp only [List.cons_append, List.cons.injEq] at hr
      have hc3 : c3 = dquote := hr.2.2.1
      exact safeChar_ne_dquote (hv c3 (by simp)) hc3
  rw [pass4_cons_nohit hopen]
  rw [pass4_skip hnd]
  rw [pass4_cons_nohit hclose]

theorem safeStr_ne_nil {s : String} (h : safeStr s = true) : s.data ≠ [] := by
  intro hnil
  simp [safeStr, hnil] at h

theorem pass4_entry {k v : String} (hk : safeStr k = true) (hv : safeStr v = true)
    (tail : List Char)
    (ht : tail = [] ∨ ∃ t rest2, tail = t :: rest2 ∧ (t = ',' ∨ t = '\x7d')) :
    pass4 (entryChars k v ++ tail)
      = entryChars (if k = "id" then "_id" else k) v ++ pass4 tail := by
  have hvchars : ∀ c ∈ v.data, safeChar c = true := safeStr_chars hv
  have hvne : v.data ≠ [] := safeStr_ne_nil hv
  by_cases hkid : k = "id"
  · subst hkid
    rw [if_pos rfl]
    have hassoc : entryChars "id" v ++ tail
        = dquote :: 'i' :: 'd' :: dquote :: ':' ::
            (' ' :: (dquote :: (v.data ++ dquote :: tail))) := by
      simp [entryChars]
    rw [hassoc, pass4_hit]
    rw [pass4_cons_nohit (fun hc => absurd hc.1 (by decide))]
    rw [pass4_quoted hvchars hvne ht]
    simp [entryChars]
  · rw [if_neg hkid]
    have hkchars : ∀ c ∈ k.data, safeChar c = true := safeStr_chars hk
    have hkne : k.data ≠ [] := safeStr_ne_nil hk
    have hassoc : entryChars k v ++ tail
        = dquote :: (k.data ++ (dquote :: ':' :: ' ' :: (dquote :: (v.data ++ dquote :: tail)))) := by
      simp [entryChars]
    have hopen : ¬(dquote = dquote ∧ startsWithChars ['i', 'd', dquote, ':']
        (k.data ++ (dquote :: ':' :: ' ' :: (dquote :: (v.data ++ dquote :: tail)))) = true) := by
      intro hc
      obtain ⟨r, hr⟩ := startsWith4 hc.2
      rcases hkd : k.data with _ | ⟨a, _ | ⟨b, _ | ⟨c3, k3⟩⟩⟩
      · exact hkne hkd
      · rw [hkd] at hr
        simp only [List.cons_append, List.nil_append, List.cons.injEq] at hr
        exact absurd hr.2.1 (by decide)
      · rw [hkd] at hr
        simp only [List.cons_append, List.nil_append, List.cons.injEq] at hr
        have hik : k = "id" := by
          apply String.ext
          rw [hkd, hr.1, hr.2.1]
        exact hkid hik
      · rw [hkd] at hr
        simp only [List.cons_append, List.cons.injEq] at hr
        have hc3 : c3 = dquote := hr.2.2.1
        exact safeChar_ne_dquote (hkchars c3 (by rw [hkd]; simp)) hc3
    rw [hassoc, pass4_cons_nohit hopen]
    rw [pass4_skip (fun c hc => safeChar_ne_dquote (hkchars c hc))]
    rw [pass4_cons_nohit (fun hc => by
      obtain ⟨r, hr⟩ := startsWith4 hc.2
      simp at hr)]
    rw [pass4_cons_nohit (fun hc => absurd hc.1 (by decide))]
    rw [pass4_cons_nohit (fun hc => absurd hc.1 (by decide))]
    rw [pass4_quoted hvchars hvne ht]
    simp [entryChars]

theorem pass4_body (tail : List Char)
    (ht : tail = [] ∨ ∃ t rest2, tail = t :: rest2 ∧ (t = ',' ∨ t = '\x7d')) :
    ∀ m : List (String × String), safeFlat m = true →
      pass4 (bodyChars m ++ tail) = bodyChars (renameId m) ++ pass4 tail := by
  intro m
  induction m with
  | nil =>
    intro _
    simp [bodyChars, renameId]
  | cons kv rest ih =>
    intro hm
    obtain ⟨hk, hv, hrest⟩ := safeFlat_cons hm
    cases rest with
    | nil =>
      show pass4 (entryChars kv.1 kv.2 ++ tail) = bodyChars (renameId [kv]) ++ pass4 tail
      rw [pass4_entry hk hv tail ht]
      rfl
    | cons kv2 rest2 =>
      have hassoc : bodyChars (kv :: kv2 :: rest2) ++ tail
          = entryChars kv.1 kv.2 ++ (',' :: ' ' :: (bodyChars (kv2 :: rest2) ++ tail)) := by
        simp [bodyChars]
      rw [hassoc]
      rw [pass4_entry hk hv _ (Or.inr ⟨',', _, rfl, Or.inl rfl⟩)]
      rw [pass4_cons_nohit (fun hc => absurd hc.1 (by decide))]
      rw [pass4_cons_nohit (fun hc => absurd hc.1 (by decide))]
      rw [ih hrest]
      simp [bodyChars, renameId]

theorem flat_no_squote {m : List (String × String)} (hm : safeFlat m = true) :
    ∀ c ∈ '\x7b' :: (bodyChars m ++ ['\x7d']), c ≠ squote := by
  intro c hc
  simp only [List.mem_cons, List.mem_append, List.mem_singleton] at hc
  rcases hc with rfl | hc
  · decide
  rcases hc with hc | hc
  · exact bodyChars_no_squote hm c hc
  rcases hc with rfl | hc
  · decide
  · simp at hc

theorem normalizeText_flat {m : List (String × String)} (hm : safeFlat m = true) :
    normalizeText (serializeFlat m).data = (serializeFlat (renameId m)).data := by
  show normalizeText ('\x7b' :: (bodyChars m ++ ['\x7d'])) = _
  unfold normalizeText
  rw [stripQuotes_flat]
  rw [show pass2 ('\x7b' :: (bodyChars m ++ ['\x7d'])) = '\x7b' :: (bodyChars m ++ ['\x7d'])
    from pass2Fuel_id (flat_no_squote hm) _]
  rw [show pass3 ('\x7b' :: (bodyChars m ++ ['\x7d'])) = '\x7b' :: (bodyChars m ++ ['\x7d'])
    from pass3Fuel_id (flat_no_squote hm) _]
  rw [pass4_cons_nohit (fun hc => absurd hc.1 (by decide))]
  rw [pass4_body _ (Or.inr ⟨'\x7d', [], rfl, Or.inr rfl⟩) m hm]
  rfl

theorem safeFlat_renameId {m : List (String × String)} (hm : safeFlat m = true) :
    safeFlat (renameId m) = true := by
  induction m with
  | nil => rfl
  | cons kv rest ih =>
    obtain ⟨hk, hv, hrest⟩ := safeFlat_cons hm
    simp only [renameId, List.map_cons, safeFlat, List.all_cons, Bool.and_eq_true]
    refine ⟨⟨?_, hv⟩, ?_⟩
    · by_cases h : kv.1 = "id"
      · rw [if_pos h]
        decide
      · rw [if_neg h]
        exact hk
    · simpa [renameId, safeFlat] using ih hrest

theorem renameId_renameId (m : List (String × String)) :
    renameId (renameId m) = renameId m := by
  induction m with
  | nil => rfl
  | cons kv rest ih =>
    simp only [renameId, List.map_cons] at ih ⊢
    rw [ih]
    have hkey : (if (if kv.1 = "id" then "_id" else kv.1) = "id" then "_id"
        else (if kv.1 = "id" then "_id" else kv.1)) = (if kv.1 = "id" then "_id" else kv.1) := by
      by_cases h : kv.1 = "id"
      · simp [h]
      · simp [h]
    rw [hkey]

/-- Claim C6 amended: the literal composition `normalize(normalize(x))` is
never defined, because the normalizer returns a parsed mapping
(`c6_counterexample`); idempotence does hold of the normalizer's textual
repair stage: on every already-valid strict flat mapping text — the strict
double-quoted serialization of a flat string-to-string mapping over
quote-free characters — applying the textual stage twice gives the same
text as applying it once (the only change the stage ever makes there is
renaming a bare `id` key, and the rename is idempotent). -/
theorem c6_amended (m : List (String × String)) (hm : safeFlat m = true) :
    normalizeTextStr (normalizeTextStr (serializeFlat m)) = normalizeTextStr (serializeFlat m) := by
  have h1 : normalizeTextStr (serializeFlat m) = serializeFlat (renameId m) := by
    unfold normalizeTextStr
    rw [normalizeText_flat hm]
  have h2 : normalizeTextStr (serializeFlat (renameId m))
      = serializeFlat (renameId (renameId m)) := by
    unfold normalizeTextStr
    rw [normalizeText_flat (safeFlat_renameId hm)]
  rw [h1, h2, renameId_renameId]

/-- Witness for `c6_amended` at the one-entry mapping with the bare `id`
key, where the textual stage actually rewrites. -/
theorem c6_amended_witness :
    normalizeTextStr (normalizeTextStr (serializeFlat [("id", "x")]))
      = normalizeTextStr (serializeFlat [("id", "x")]) :=
  c6_amended [("id", "x")] rfl
